import Mathlib

/-!
Shallow embedding of `src/examples/sac_pybullet.py` (the cherry SAC example).

Floating-point tensors are modelled as lists of real numbers.  The autograd
semantics of torch is modelled by forward-mode dual numbers: every primitive
operation used by the script (add, mul, sub, neg, relu, exp, scalar multiply)
carries the torch backward rule for that operation, so the `der` component of
an evaluation seeded at one parameter is the partial derivative that
`loss.backward()` would accumulate into that parameter's `.grad` buffer.
`detach()` in the source corresponds to a value entering a computation through
`SacPrims.const` (derivative zero).

The optimizers are injected into `SoftActorCritic.__init__` by the caller in
the source, so they are modelled as abstract functions from (parameters,
gradients) to parameters, exactly the `zero_grad`/`backward`/`step` interface
the update method uses.
-/

noncomputable section

namespace Cherry

/-- A 1-D tensor of floats. -/
abbrev Vec := List ℝ

/-- Dual number `val + der·ε`: the value of a node of the computation graph
together with its derivative along one chosen parameter direction. -/
structure D where
  val : ℝ
  der : ℝ

instance : Add D := ⟨fun x y => ⟨x.val + y.val, x.der + y.der⟩⟩

instance : Mul D := ⟨fun x y => ⟨x.val * y.val, x.val * y.der + x.der * y.val⟩⟩

instance : Neg D := ⟨fun x => ⟨-x.val, -x.der⟩⟩

instance : Sub D := ⟨fun x y => ⟨x.val - y.val, x.der - y.der⟩⟩

@[simp] theorem D_add_val (x y : D) : (x + y).val = x.val + y.val := rfl

@[simp] theorem D_add_der (x y : D) : (x + y).der = x.der + y.der := rfl

@[simp] theorem D_mul_val (x y : D) : (x * y).val = x.val * y.val := rfl

@[simp] theorem D_mul_der (x y : D) : (x * y).der = x.val * y.der + x.der * y.val := rfl

@[simp] theorem D_neg_val (x : D) : (-x).val = -x.val := rfl

@[simp] theorem D_neg_der (x : D) : (-x).der = -x.der := rfl

@[simp] theorem D_sub_val (x y : D) : (x - y).val = x.val - y.val := rfl

@[simp] theorem D_sub_der (x y : D) : (x - y).der = x.der - y.der := rfl

/-- The scalar primitives used by the script beyond ring operations:
`F.relu`, `Tensor.exp`, multiplication by a python float constant, and the
embedding of non-tracked (detached or data) floats into the graph. -/
class SacPrims (α : Type) where
  relu : α → α
  exp : α → α
  smul : ℝ → α → α
  const : ℝ → α

instance : SacPrims ℝ where
  relu x := max x 0
  exp := Real.exp
  smul r x := r * x
  const r := r

/-- Dual-number rules matching the backward rules torch uses for each
primitive; in particular the relu derivative at 0 is 0. -/
instance : SacPrims D where
  relu x := ⟨max x.val 0, if 0 < x.val then x.der else 0⟩
  exp x := ⟨Real.exp x.val, Real.exp x.val * x.der⟩
  smul r x := ⟨r * x.val, r * x.der⟩
  const r := ⟨r, 0⟩

@[simp] theorem relu_real (x : ℝ) : SacPrims.relu x = max x 0 := rfl

@[simp] theorem exp_real (x : ℝ) : SacPrims.exp x = Real.exp x := rfl

@[simp] theorem smul_real (r x : ℝ) : SacPrims.smul r x = r * x := rfl

@[simp] theorem const_real (r : ℝ) : (SacPrims.const r : ℝ) = r := rfl

@[simp] theorem relu_D (x : D) :
    SacPrims.relu x = D.mk (max x.val 0) (if 0 < x.val then x.der else 0) := rfl

@[simp] theorem exp_D (x : D) :
    SacPrims.exp x = D.mk (Real.exp x.val) (Real.exp x.val * x.der) := rfl

@[simp] theorem smul_D (r : ℝ) (x : D) : SacPrims.smul r x = D.mk (r * x.val) (r * x.der) := rfl

@[simp] theorem const_D (r : ℝ) : (SacPrims.const r : D) = D.mk r 0 := rfl

/-- Three-list pointwise zip (torch broadcasts elementwise over equal shapes). -/
def zipWith3R {α β γ δ : Type} (f : α → β → γ → δ) : List α → List β → List γ → List δ
  | a :: as, b :: bs, c :: cs => f a b c :: zipWith3R f as bs cs
  | _, _, _ => []

/-- Four-list pointwise zip. -/
def zipWith4R {α β γ δ ε : Type} (f : α → β → γ → δ → ε) :
    List α → List β → List γ → List δ → List ε
  | a :: as, b :: bs, c :: cs, d :: ds => f a b c d :: zipWith4R f as bs cs ds
  | _, _, _, _ => []

variable {α : Type}

/-- Sum of the entries of a tensor. -/
def sumG [Add α] [SacPrims α] (l : List α) : α := l.foldr (· + ·) (SacPrims.const 0)

/-- `Tensor.mean()`: sum divided by the number of elements. -/
def meanG [Add α] [SacPrims α] (l : List α) : α :=
  SacPrims.smul (1 / (l.length : ℝ)) (sumG l)

/-- Dot product of a weight row with the input. -/
def dotG [Add α] [Mul α] [SacPrims α] (x y : List α) : α := sumG (List.zipWith (· * ·) x y)

/-- One `nn.Linear` layer: a weight matrix (rows = output features) and a bias. -/
structure Layer (α : Type) where
  weight : List (List α)
  bias : List α

/-- The `Mlp` module of the source (lines 54-108): hidden layers `fcs` and the
output layer `last_fc`.  In the script every `Mlp` is built with the default
`hidden_activation=F.relu` and `output_activation=identity`. -/
structure Mlp (α : Type) where
  fcs : List (Layer α)
  last_fc : Layer α

/-- `nn.Linear.forward`: `W x + b`. -/
def affineG [Add α] [Mul α] [SacPrims α] (L : Layer α) (x : List α) : List α :=
  List.zipWith (fun row b => dotG row x + b) L.weight L.bias

/-- `F.relu` applied elementwise. -/
def reluVG [SacPrims α] (v : List α) : List α := v.map SacPrims.relu

/-- `Mlp.forward` (source lines 90-97): fold the hidden layers with relu, then
the output layer with the identity output activation. -/
def mlpForwardG [Add α] [Mul α] [SacPrims α] (p : Mlp α) (x : List α) : List α :=
  affineG p.last_fc (p.fcs.foldl (fun h L => reluVG (affineG L h)) x)

/-- Lift a data tensor (no gradient tracking) into the computation graph. -/
def constVG [SacPrims α] (v : Vec) : List α := v.map SacPrims.const

/-- Extract the single entry of an `output_size=1` network result. -/
def scalarG [SacPrims α] (v : List α) : α := v.headD (SacPrims.const 0)

/-- `nn.MSELoss()` with the default mean reduction. -/
def mseG [Add α] [Mul α] [Sub α] [SacPrims α] (x y : List α) : α :=
  meanG (List.zipWith (fun a b => (a - b) * (a - b)) x y)

/-- One sampled batch of transitions (`replay.sample(40)` in the source); the
five fields are aligned by index. -/
structure Batch where
  states : List Vec
  actions : List Vec
  rewards : List ℝ
  next_states : List Vec
  dones : List ℝ

/-- `q_pred = self.qf(batch.states, batch.actions)` (source line 283);
`FlattenMlp` concatenates its inputs along the feature dimension. -/
def qPredG [Add α] [Mul α] [SacPrims α] (qf : Mlp α) (states actions : List Vec) : List α :=
  List.zipWith (fun s a => scalarG (mlpForwardG qf (constVG (s ++ a)))) states actions

/-- A state-value network applied to a batch of observations. -/
def vOutG [Add α] [Mul α] [SacPrims α] (m : Mlp α) (xs : List Vec) : List α :=
  xs.map (fun x => scalarG (mlpForwardG m (constVG x)))

/-- `q_target = batch.rewards + (1. - batch.dones) * self.discount *
target_v_values` (source line 285).  Note there is no `detach()` here. -/
def qTargetG [Add α] [Mul α] [SacPrims α] (tvf : Mlp α) (γ : ℝ)
    (rewards dones : List ℝ) (next_states : List Vec) : List α :=
  zipWith3R (fun r d tv => SacPrims.const r + SacPrims.smul ((1 - d) * γ) tv)
    rewards dones (vOutG tvf next_states)

/-- `qf_loss = self.qf_criterion(q_pred, q_target)` (source line 286). -/
def qfLossG [Add α] [Mul α] [Sub α] [SacPrims α] (qf tvf : Mlp α) (γ : ℝ) (b : Batch) : α :=
  mseG (qPredG qf b.states b.actions) (qTargetG tvf γ b.rewards b.dones b.next_states)

/-- `q_new_actions = self.qf(batch.next_states, batch.actions)` (source line
304): the batch's original stored actions paired with the next states. -/
def qNewG [Add α] [Mul α] [SacPrims α] (qf : Mlp α) (next_states actions : List Vec) : List α :=
  List.zipWith (fun ns a => scalarG (mlpForwardG qf (constVG (ns ++ a)))) next_states actions

/-- `vf_loss = self.vf_criterion(v_pred, v_target.detach())` (source line 307):
the target enters as detached data. -/
def vfLossG [Add α] [Mul α] [Sub α] [SacPrims α] (vf : Mlp α) (vt : List ℝ)
    (states : List Vec) : α :=
  mseG (vOutG vf states) (constVG vt)

/-- `policy_loss = (alpha*log_pi - q_new_actions).mean()` (source lines
315-316), with `alpha = self.log_alpha.exp()` a graph node rooted at
`log_alpha` and `log_pi` a detached constant. -/
def policyLossG [Add α] [Mul α] [Sub α] [SacPrims α] (qf : Mlp α) (log_alpha : α)
    (log_pi : List ℝ) (next_states actions : List Vec) : α :=
  meanG (List.zipWith (fun lp q => SacPrims.exp log_alpha * SacPrims.const lp - q)
    log_pi (qNewG qf next_states actions))

/-- `alpha_loss = -(self.log_alpha * (log_pi + self.target_entropy).detach()).mean()`
(source line 265); `c` is the detached per-sample `log_pi + target_entropy`. -/
def alphaLossG [Add α] [Mul α] [Neg α] [SacPrims α] (log_alpha : α) (c : List ℝ) : α :=
  -(meanG (c.map (fun ci => log_alpha * SacPrims.const ci)))

/-- Indexed map with an explicit counter. -/
def mapIdxGo {β γ : Type} (f : ℕ → β → γ) : ℕ → List β → List γ
  | _, [] => []
  | n, x :: xs => f n x :: mapIdxGo f (n + 1) xs

/-- Indexed map starting at position 0. -/
def mapIdxR {β γ : Type} (f : ℕ → β → γ) (l : List β) : List γ := mapIdxGo f 0 l

/-- Lift a real vector to dual constants (derivative 0). -/
def constVD (v : Vec) : List D := v.map (fun x => ⟨x, 0⟩)

/-- Lift a real matrix to dual constants. -/
def constMatD (m : List Vec) : List (List D) := m.map constVD

/-- Lift a layer to dual constants. -/
def constLayerD (L : Layer ℝ) : Layer D := ⟨constMatD L.weight, constVD L.bias⟩

/-- Lift a whole network to dual constants (its parameters are held fixed in
the differentiation). -/
def constMlpD (p : Mlp ℝ) : Mlp D := ⟨p.fcs.map constLayerD, constLayerD p.last_fc⟩

/-- Parameter coordinates inside one linear layer. -/
inductive LayerIx where
  | w (i j : ℕ)
  | b (i : ℕ)

/-- Parameter coordinates inside an `Mlp`. -/
inductive MlpIx where
  | fc (k : ℕ) (ix : LayerIx)
  | last (ix : LayerIx)

/-- Seed derivative 1 at position `i` of a vector. -/
def seedVecAt (v : Vec) (i : ℕ) : List D :=
  mapIdxR (fun j x => ⟨x, if j = i then 1 else 0⟩) v

/-- Seed derivative 1 at entry `(i, j)` of a matrix. -/
def seedMatAt (m : List Vec) (i j : ℕ) : List (List D) :=
  mapIdxR (fun i' row => if i' = i then seedVecAt row j else constVD row) m

/-- Seed one coordinate of a layer. -/
def seedLayerAt (L : Layer ℝ) : LayerIx → Layer D
  | .w i j => ⟨seedMatAt L.weight i j, constVD L.bias⟩
  | .b i => ⟨constMatD L.weight, seedVecAt L.bias i⟩

/-- Seed one coordinate of an `Mlp`. -/
def seedMlpAt (p : Mlp ℝ) : MlpIx → Mlp D
  | .fc k lix =>
      ⟨mapIdxR (fun k' L => if k' = k then seedLayerAt L lix else constLayerD L) p.fcs,
       constLayerD p.last_fc⟩
  | .last lix => ⟨p.fcs.map constLayerD, seedLayerAt p.last_fc lix⟩

/-- The full gradient (one real per parameter) of a scalar graph `f` over the
parameters of one `Mlp`: the entry at coordinate `ix` is the derivative of `f`
seeded at `ix`.  This is the tensor `loss.backward()` adds to the `.grad`
buffers of that network's parameters. -/
def gradMlpBy (f : Mlp D → D) (p : Mlp ℝ) : Mlp ℝ where
  fcs := mapIdxR (fun k L =>
    { weight := mapIdxR (fun i row =>
        mapIdxR (fun j _ => (f (seedMlpAt p (.fc k (.w i j)))).der) row) L.weight
      bias := mapIdxR (fun i _ => (f (seedMlpAt p (.fc k (.b i)))).der) L.bias }) p.fcs
  last_fc :=
    { weight := mapIdxR (fun i row =>
        mapIdxR (fun j _ => (f (seedMlpAt p (.last (.w i j)))).der) row) p.last_fc.weight
      bias := mapIdxR (fun i _ => (f (seedMlpAt p (.last (.b i)))).der) p.last_fc.bias }

/-- Derivative of a scalar graph with respect to a scalar leaf parameter. -/
def gradScalarBy (f : D → D) (x : ℝ) : ℝ := (f ⟨x, 1⟩).der

/-- A vector of zeros of the same shape. -/
def zeroVec (v : Vec) : Vec := v.map (fun _ => 0)

/-- A layer of zeros of the same shape. -/
def zeroLayer (L : Layer ℝ) : Layer ℝ := ⟨L.weight.map zeroVec, zeroVec L.bias⟩

/-- A network of zeros of the same shape. -/
def zeroLikeMlp (p : Mlp ℝ) : Mlp ℝ := ⟨p.fcs.map zeroLayer, zeroLayer p.last_fc⟩

/-- The `TanhGaussianPolicy` of the source (lines 119-187).  `last_fc`
produces the Gaussian mean; when `std` is `none` a second head
`last_fc_log_std` produces a log standard deviation clamped to `[-20, 2]`,
otherwise the fixed `std` is broadcast.  `epsilon` regularises the
change-of-variables correction. -/
structure TGPolicy where
  fcs : List (Layer ℝ)
  last_fc : Layer ℝ
  last_fc_log_std : Layer ℝ
  std : Option ℝ
  epsilon : ℝ

/-- The shared hidden trunk `h` of the policy (source lines 158-160). -/
def tgpHidden (P : TGPolicy) (obs : Vec) : Vec :=
  P.fcs.foldl (fun h L => reluVG (affineG L h)) obs

/-- `mean = self.last_fc(h)` (source line 161). -/
def tgpMean (P : TGPolicy) (obs : Vec) : Vec := affineG P.last_fc (tgpHidden P obs)

/-- `th.clamp` with scalar bounds. -/
def clampR (x lo hi : ℝ) : ℝ := min (max x lo) hi

/-- The per-dimension standard deviation (source lines 162-168): either
`exp(clamp(last_fc_log_std(h), -20, 2))` or the fixed `std` broadcast to the
action shape. -/
def tgpStd (P : TGPolicy) (obs : Vec) : Vec :=
  match P.std with
  | none =>
      (affineG P.last_fc_log_std (tgpHidden P obs)).map (fun ls => Real.exp (clampR ls (-20) 2))
  | some s => (tgpMean P obs).map (fun _ => s)

/-- `torch.distributions.Normal(m, s).log_prob x`:
`-(x-m)^2/(2 s^2) - log s - log (sqrt (2 π))`. -/
def normalLogProb (m s x : ℝ) : ℝ :=
  -((x - m) ^ 2) / (2 * s ^ 2) - Real.log s - Real.log (Real.sqrt (2 * Real.pi))

/-- `TanhGaussianPolicy.forward` (source lines 151-187) on one observation.
`noise` is the standard-normal draw behind `normal_dist.sample()` (so the
sample is `mean + std * noise`); the `reparameterize` and `return_log_prob`
arguments of the source are never read in its body and are omitted here.
Returns `(action, mean, log_prob)`. -/
def tgpForward (P : TGPolicy) (obs : Vec) (deterministic : Bool) (noise : Vec) :
    Vec × Vec × Option Vec :=
  let mean := tgpMean P obs
  let std := tgpStd P obs
  if deterministic then
    (mean.map Real.tanh, mean, none)
  else
    let z := zipWith3R (fun m s x => m + s * x) mean std noise
    let action := z.map Real.tanh
    let pre_tanh := action.map (fun a => Real.log ((1 + a) / (1 - a)) / 2)
    let zlp := zipWith4R
      (fun m s pt a => normalLogProb m s pt - Real.log (1 - a * a + P.epsilon))
      mean std pre_tanh action
    (action, mean, some (zlp.map Real.tanh))

/-- `log_pi` as computed in `update` (source lines 254-256): run the policy on
the batch's current states, sum the per-dimension `log_prob` over the action
dimension, detach. -/
def logPiOf (P : TGPolicy) (states noise : List Vec) : List ℝ :=
  List.zipWith (fun s xs => (((tgpForward P s false xs).2.2).getD []).sum) states noise

/-- Gradient buffers for the parameters `policy.parameters()` exposes.  In the
source `Mlp.fcs` is a plain python list, so its layers are not registered
submodules: `parameters()` (hence the policy optimizer) sees only `last_fc`
and `last_fc_log_std`. -/
structure PolicyGrad where
  last_fc : Layer ℝ
  last_fc_log_std : Layer ℝ

/-- Zero gradient buffers for the policy's registered parameters. -/
def zeroLikePolicy (P : TGPolicy) : PolicyGrad :=
  ⟨zeroLayer P.last_fc, zeroLayer P.last_fc_log_std⟩

/-- The scalar configuration of `SoftActorCritic.__init__` used by `update`. -/
structure SacConfig where
  discount : ℝ
  soft_target_tau : ℝ
  target_entropy : ℝ
  use_automatic_entropy_tuning : Bool

/-- The mutable approximator parameters owned by `SoftActorCritic`. -/
structure SacState where
  policy : TGPolicy
  qf : Mlp ℝ
  vf : Mlp ℝ
  target_vf : Mlp ℝ
  log_alpha : ℝ

/-- The injected optimizers: each maps (current parameters, accumulated
gradients) to new parameters — the `zero_grad`/`backward`/`step` interface
`update` relies on.  The script instantiates them with Adam over each
network's `parameters()`. -/
structure Optims where
  policy_opt : TGPolicy → PolicyGrad → TGPolicy
  qf_opt : Mlp ℝ → Mlp ℝ → Mlp ℝ
  vf_opt : Mlp ℝ → Mlp ℝ → Mlp ℝ
  alpha_opt : ℝ → ℝ → ℝ

/-- One tensor of the smoothing rule
`target_param.data*(1-τ) + param.data*τ` (source lines 340-342). -/
def softUpdateLayer (τ : ℝ) (t s : Layer ℝ) : Layer ℝ where
  weight := List.zipWith (List.zipWith (fun tp sp => tp * (1 - τ) + sp * τ)) t.weight s.weight
  bias := List.zipWith (fun tp sp => tp * (1 - τ) + sp * τ) t.bias s.bias

/-- The target smoothing loop (source lines 339-342), iterating
`zip(self.target_vf.parameters(), self.vf.parameters())`.  Because the hidden
`fcs` layers live in a plain python list they are not registered submodules,
so `parameters()` yields only the `last_fc` tensors: the loop smooths
`last_fc` in lock-step and leaves `fcs` untouched. -/
def softUpdateMlp (τ : ℝ) (t s : Mlp ℝ) : Mlp ℝ where
  fcs := t.fcs
  last_fc := softUpdateLayer τ t.last_fc s.last_fc

/-- The gradient `alpha_loss.backward()` deposits in `log_alpha`'s buffer. -/
def alphaGrad (la : ℝ) (c : List ℝ) : ℝ := gradScalarBy (fun x => alphaLossG x c) la

/-- `self.log_alpha` after the temperature block (source lines 263-272): one
`alpha_optimizer` step when automatic tuning is on, unchanged otherwise. -/
def newLogAlpha (cfg : SacConfig) (opts : Optims) (la : ℝ) (log_pi : List ℝ) : ℝ :=
  if cfg.use_automatic_entropy_tuning then
    opts.alpha_opt la (alphaGrad la (log_pi.map (fun lp => lp + cfg.target_entropy)))
  else la

/-- The `alpha` value used by the later losses: `self.log_alpha.exp()` taken
after the temperature step, or the constant 1 when tuning is off (source
lines 269-271). -/
def alphaUsed (cfg : SacConfig) (opts : Optims) (la : ℝ) (log_pi : List ℝ) : ℝ :=
  if cfg.use_automatic_entropy_tuning then Real.exp (newLogAlpha cfg opts la log_pi) else 1

/-- Gradients `qf_loss.backward()` adds to the Q-network's buffers. -/
def qfGrad (qf tvf : Mlp ℝ) (γ : ℝ) (b : Batch) : Mlp ℝ :=
  gradMlpBy (fun q => qfLossG q (constMlpD tvf) γ b) qf

/-- Gradients `qf_loss.backward()` adds to the target-V network's buffers:
`q_target` is built from `self.target_vf(batch.next_states)` without a
`detach()`, so the backward pass reaches these leaves. -/
def tvfGradOfQfLoss (qf tvf : Mlp ℝ) (γ : ℝ) (b : Batch) : Mlp ℝ :=
  gradMlpBy (fun t => qfLossG (constMlpD qf) t γ b) tvf

/-- `v_target = q_new_actions - alpha*log_pi` (source line 306), a real-valued
tensor whose `.detach()` is what the V-loss regresses onto. -/
def vTargetVals (qf : Mlp ℝ) (alpha : ℝ) (log_pi : List ℝ) (b : Batch) : List ℝ :=
  List.zipWith (fun q lp => q - alpha * lp) (qNewG qf b.next_states b.actions) log_pi

/-- Gradients `vf_loss.backward()` adds to the V-network's buffers. -/
def vfGrad (vf : Mlp ℝ) (vt : List ℝ) (states : List Vec) : Mlp ℝ :=
  gradMlpBy (fun v => vfLossG v vt states) vf

/-- Gradients `policy_loss.backward()` adds to the Q-network's buffers via
the non-detached `q_new_actions`. -/
def qfGradOfPolicyLoss (qf : Mlp ℝ) (la : ℝ) (log_pi : List ℝ) (b : Batch) : Mlp ℝ :=
  gradMlpBy (fun q => policyLossG q (⟨la, 0⟩ : D) log_pi b.next_states b.actions) qf

/-- The gradient `policy_loss.backward()` adds to `log_alpha`'s buffer via
the non-detached `alpha = self.log_alpha.exp()`. -/
def laGradOfPolicyLoss (qf : Mlp ℝ) (la : ℝ) (log_pi : List ℝ) (b : Batch) : ℝ :=
  gradScalarBy (fun x => policyLossG (constMlpD qf) x log_pi b.next_states b.actions) la

/-- `SoftActorCritic.update` (source lines 251-342) on one sampled batch.
`noise` provides the standard-normal draws behind the policy's
`normal_dist.sample()` on the batch's states.  Each optimizer step receives
exactly the gradients its own loss's backward pass put into its freshly
zeroed buffers; the policy's buffers receive nothing because `log_pi` is
detached (line 255) and `policy_loss` otherwise involves only the Q-network
and `log_alpha`.  The backward passes additionally leak gradients into
buffers whose parameters no step of this call touches (`tvfGradOfQfLoss`,
`qfGradOfPolicyLoss`, `laGradOfPolicyLoss`). -/
def update (cfg : SacConfig) (opts : Optims) (S : SacState) (b : Batch)
    (noise : List Vec) : SacState :=
  let log_pi := logPiOf S.policy b.states noise
  let la' := newLogAlpha cfg opts S.log_alpha log_pi
  let alpha := alphaUsed cfg opts S.log_alpha log_pi
  let vt := vTargetVals S.qf alpha log_pi b
  let vf' := opts.vf_opt S.vf (vfGrad S.vf vt b.states)
  { policy := opts.policy_opt S.policy (zeroLikePolicy S.policy)
    qf := opts.qf_opt S.qf (qfGrad S.qf S.target_vf cfg.discount b)
    vf := vf'
    target_vf := softUpdateMlp cfg.soft_target_tau S.target_vf vf'
    log_alpha := la' }

/-! ### Spec-side definitions

These follow the spec's wording (not the source) and are used to state the
refinement conjuncts of the claims. -/

/-- Mean-squared error as the spec words it: the mean over elements of the
squared differences. -/
def specMse (x y : List ℝ) : ℝ :=
  (List.zipWith (fun a b => (a - b) ^ 2) x y).sum /
    (List.zipWith (fun a b => (a - b) ^ 2) x y).length

/-- The spec's action-value regression target `r + (1 − d)·γ·V_target(s')`. -/
def specQTarget (γ : ℝ) (rewards dones tv : List ℝ) : List ℝ :=
  zipWith3R (fun r d v => r + (1 - d) * γ * v) rewards dones tv

/-! ### Helper lemmas -/

theorem sumG_real (l : List ℝ) : sumG l = l.sum := by
  induction l with
  | nil => rfl
  | cons x xs ih => simp [sumG] at ih ⊢; simp [ih]

theorem meanG_real (l : List ℝ) : meanG l = l.sum / l.length := by
  simp [meanG, sumG_real]
  rw [inv_mul_eq_div]

theorem mseG_real (x y : List ℝ) : mseG x y = specMse x y := by
  have h : (fun a b : ℝ => (a - b) * (a - b)) = fun a b => (a - b) ^ 2 := by
    funext a b; ring
  rw [mseG, specMse, h, meanG_real]

theorem constVG_real (v : Vec) : constVG (α := ℝ) v = v := by
  unfold constVG
  have h : (SacPrims.const : ℝ → ℝ) = id := rfl
  rw [h, List.map_id]

theorem qTargetG_real (tvf : Mlp ℝ) (γ : ℝ) (rewards dones : List ℝ)
    (next_states : List Vec) :
    qTargetG tvf γ rewards dones next_states =
      specQTarget γ rewards dones (vOutG tvf next_states) := by
  have h : (fun r d tv : ℝ => SacPrims.const r + SacPrims.smul ((1 - d) * γ) tv) =
      fun r d v => r + (1 - d) * γ * v := by
    funext r d v; simp
  rw [qTargetG, specQTarget, h]

theorem qfLossG_real (qf tvf : Mlp ℝ) (γ : ℝ) (b : Batch) :
    qfLossG qf tvf γ b =
      specMse (qPredG qf b.states b.actions)
        (specQTarget γ b.rewards b.dones (vOutG tvf b.next_states)) := by
  rw [qfLossG, mseG_real, qTargetG_real]

theorem vfLossG_real (vf : Mlp ℝ) (vt : List ℝ) (states : List Vec) :
    vfLossG vf vt states = specMse (vOutG vf states) vt := by
  rw [vfLossG, mseG_real, constVG_real]

theorem tanh_bounds (x : ℝ) : -1 < Real.tanh x ∧ Real.tanh x < 1 := by
  have hc := Real.cosh_pos x
  have h1 : Real.sinh x < Real.cosh x := by
    nlinarith [Real.cosh_sub_sinh x, Real.exp_pos (-x)]
  have h2 : -Real.cosh x < Real.sinh x := by
    nlinarith [Real.cosh_add_sinh x, Real.exp_pos x]
  rw [Real.tanh_eq_sinh_div_cosh]
  refine ⟨?_, (div_lt_one hc).2 h1⟩
  rw [lt_div_iff₀ hc]
  linarith

theorem forall_map_tanh (l : List ℝ) :
    (l.map Real.tanh).Forall (fun a => -1 < a ∧ a < 1) := by
  induction l with
  | nil => trivial
  | cons x xs ih => exact (List.forall_cons _ _ _).2 ⟨tanh_bounds x, ih⟩

/-- Recovering the pre-squash value: the source recomputes it as
`log((1+action)/(1-action))/2`, which equals the original Gaussian sample. -/
theorem log_ratio_tanh (z : ℝ) :
    Real.log ((1 + Real.tanh z) / (1 - Real.tanh z)) / 2 = z := by
  have hc := Real.cosh_pos z
  have h1 : 1 + Real.tanh z = Real.exp z / Real.cosh z := by
    rw [Real.tanh_eq_sinh_div_cosh]
    field_simp
  have h2 : 1 - Real.tanh z = Real.exp (-z) / Real.cosh z := by
    rw [Real.tanh_eq_sinh_div_cosh]
    field_simp
  have h3 : (1 + Real.tanh z) / (1 - Real.tanh z) = Real.exp (2 * z) := by
    rw [h1, h2, div_div_div_cancel_right₀ hc.ne', ← Real.exp_sub]
    congr 1
    ring
  rw [h3, Real.log_exp]
  ring

@[simp] theorem D_mk_val (a b : ℝ) : (D.mk a b).val = a := rfl

@[simp] theorem D_mk_der (a b : ℝ) : (D.mk a b).der = b := rfl

@[simp] theorem sumG_nil [Add α] [SacPrims α] : sumG ([] : List α) = SacPrims.const 0 := rfl

@[simp] theorem sumG_cons [Add α] [SacPrims α] (x : α) (xs : List α) :
    sumG (x :: xs) = x + sumG xs := rfl

@[simp] theorem zipWith3R_nil₁ {β γ δ ε : Type} (f : β → γ → δ → ε) (bs : List γ)
    (cs : List δ) : zipWith3R f [] bs cs = [] := by
  cases bs <;> cases cs <;> rfl

@[simp] theorem zipWith3R_nil₂ {β γ δ ε : Type} (f : β → γ → δ → ε) (a : β) (as : List β)
    (cs : List δ) : zipWith3R f (a :: as) [] cs = [] := by
  cases cs <;> rfl

@[simp] theorem zipWith3R_nil₃ {β γ δ ε : Type} (f : β → γ → δ → ε) (a : β) (as : List β)
    (b : γ) (bs : List γ) : zipWith3R f (a :: as) (b :: bs) [] = [] := rfl

@[simp] theorem zipWith3R_cons {β γ δ ε : Type} (f : β → γ → δ → ε) (a : β) (as : List β)
    (b : γ) (bs : List γ) (c : δ) (cs : List δ) :
    zipWith3R f (a :: as) (b :: bs) (c :: cs) = f a b c :: zipWith3R f as bs cs := rfl

@[simp] theorem zipWith4R_nil₁ {β γ δ ε ζ : Type} (f : β → γ → δ → ε → ζ) (bs : List γ)
    (cs : List δ) (ds : List ε) : zipWith4R f [] bs cs ds = [] := by
  cases bs <;> cases cs <;> cases ds <;> rfl

@[simp] theorem zipWith4R_nil₂ {β γ δ ε ζ : Type} (f : β → γ → δ → ε → ζ) (a : β)
    (as : List β) (cs : List δ) (ds : List ε) : zipWith4R f (a :: as) [] cs ds = [] := by
  cases cs <;> cases ds <;> rfl

@[simp] theorem zipWith4R_nil₃ {β γ δ ε ζ : Type} (f : β → γ → δ → ε → ζ) (a : β)
    (as : List β) (b : γ) (bs : List γ) (ds : List ε) :
    zipWith4R f (a :: as) (b :: bs) [] ds = [] := by
  cases ds <;> rfl

@[simp] theorem zipWith4R_nil₄ {β γ δ ε ζ : Type} (f : β → γ → δ → ε → ζ) (a : β)
    (as : List β) (b : γ) (bs : List γ) (c : δ) (cs : List δ) :
    zipWith4R f (a :: as) (b :: bs) (c :: cs) [] = [] := rfl

@[simp] theorem zipWith4R_cons {β γ δ ε ζ : Type} (f : β → γ → δ → ε → ζ) (a : β)
    (as : List β) (b : γ) (bs : List γ) (c : δ) (cs : List δ) (d : ε) (ds : List ε) :
    zipWith4R f (a :: as) (b :: bs) (c :: cs) (d :: ds) =
      f a b c d :: zipWith4R f as bs cs ds := rfl

/-! ### Claim C8 -/

/-- Claim C8: for every observation, in both stochastic and deterministic
modes, every component of the action returned by the policy lies strictly
within the open interval (-1, 1). -/
theorem C8_action_bounded (P : TGPolicy) (obs : Vec) (deterministic : Bool)
    (noise : Vec) :
    ((tgpForward P obs deterministic noise).1).Forall (fun a => -1 < a ∧ a < 1) := by
  cases deterministic
  · exact forall_map_tanh _
  · exact forall_map_tanh _

/-! ### Claim C10 -/

/-- Claim C10: in stochastic mode every component of the returned `log_prob`
lies strictly within (-1, 1), because the computed per-dimension value is
passed through `th.tanh` before being returned; in particular no reported
log-probability is below -1. -/
theorem C10_log_prob_bounded (P : TGPolicy) (obs : Vec) (noise : Vec) :
    ∃ l, (tgpForward P obs false noise).2.2 = some l ∧
      l.Forall (fun x => -1 < x ∧ x < 1) :=
  ⟨_, rfl, forall_map_tanh _⟩

/-! ### Claim C3 -/

theorem zlpMapTanh (ε : ℝ) : ∀ (ms ss xs : List ℝ),
    (zipWith4R (fun m s pt a => normalLogProb m s pt - Real.log (1 - a * a + ε)) ms ss
        (((zipWith3R (fun m s x => m + s * x) ms ss xs).map Real.tanh).map
          (fun a => Real.log ((1 + a) / (1 - a)) / 2))
        ((zipWith3R (fun m s x => m + s * x) ms ss xs).map Real.tanh)).map Real.tanh
      = zipWith3R (fun m s x =>
          Real.tanh (normalLogProb m s (m + s * x)
            - Real.log (1 - Real.tanh (m + s * x) * Real.tanh (m + s * x) + ε))) ms ss xs
  | [], ss, xs => by simp
  | m :: ms, [], xs => by simp
  | m :: ms, s :: ss, [] => by simp
  | m :: ms, s :: ss, x :: xs => by
      simp only [zipWith3R_cons, List.map_cons, zipWith4R_cons]
      rw [log_ratio_tanh]
      exact congrArg (List.cons _) (zlpMapTanh ε ms ss xs)

/-- Claim C3 (amended): in stochastic mode the returned `log_prob` is `tanh`
of (the latent Gaussian's log-density at the pre-squash value minus the
change-of-variables correction `log(1 - action^2 + epsilon)`), per action
dimension — the source squashes the per-dimension log-likelihood through
`th.tanh` before returning it. -/
theorem C3_log_prob_squashed (P : TGPolicy) (obs : Vec) (noise : Vec) :
    (tgpForward P obs false noise).2.2 =
      some (zipWith3R (fun m s x =>
          Real.tanh (normalLogProb m s (m + s * x)
            - Real.log (1 - Real.tanh (m + s * x) * Real.tanh (m + s * x) + P.epsilon)))
        (tgpMean P obs) (tgpStd P obs) noise) :=
  congrArg some (zlpMapTanh P.epsilon (tgpMean P obs) (tgpStd P obs) noise)

/-- A concrete one-dimensional policy with no hidden layers, zero output
weights, the fixed standard deviation `exp 2` (its log, 2, lies at the top of
the clamp range the constructor asserts) and the default `epsilon = 1e-6`. -/
def pol0 : TGPolicy := ⟨[], ⟨[[0]], [0]⟩, ⟨[[0]], [0]⟩, some (Real.exp 2), 1e-6⟩

/-- Claim C3 counterexample: at observation `[0]` with noise draw `[0]`, the
policy `pol0` returns a `log_prob` component different from the
squashed-Gaussian log-likelihood (Gaussian log-density at the pre-squash
value minus the correction) that the claim asserts it equals. -/
theorem C3_counterexample :
    (((tgpForward pol0 [0] false [0]).2.2).getD []).headD 0 ≠
      normalLogProb 0 (Real.exp 2) 0 - Real.log (1 - 0 * 0 + (1e-6 : ℝ)) := by
  have heval : (((tgpForward pol0 [0] false [0]).2.2).getD []).headD 0 =
      Real.tanh (normalLogProb 0 (Real.exp 2) 0 - Real.log (1 - 0 * 0 + (1e-6 : ℝ))) := by
    simp [tgpForward, tgpMean, tgpStd, tgpHidden, pol0, affineG, dotG, reluVG, constVG,
      scalarG]
  have hy : normalLogProb 0 (Real.exp 2) 0 - Real.log (1 - 0 * 0 + (1e-6 : ℝ)) < -1 := by
    have h1 : normalLogProb 0 (Real.exp 2) 0 = -2 - Real.log (Real.sqrt (2 * Real.pi)) := by
      unfold normalLogProb
      rw [Real.log_exp]
      norm_num
    have h2 : 0 < Real.log (Real.sqrt (2 * Real.pi)) := by
      apply Real.log_pos
      exact (Real.lt_sqrt (by norm_num)).2 (by nlinarith [Real.pi_gt_three])
    have h3 : 0 < Real.log (1 - 0 * 0 + (1e-6 : ℝ)) := by
      apply Real.log_pos
      norm_num
    rw [h1]
    linarith
  rw [heval]
  intro hEq
  have hb := (tanh_bounds (normalLogProb 0 (Real.exp 2) 0 -
    Real.log (1 - 0 * 0 + (1e-6 : ℝ)))).1
  rw [hEq] at hb
  linarith

/-! ### Claim C5 -/

/-- The two tensors of a layer have matching shapes. -/
def layerShapeEq (a b : Layer ℝ) : Prop :=
  List.Forall₂ (fun r₁ r₂ => r₁.length = r₂.length) a.weight b.weight ∧
    a.bias.length = b.bias.length

theorem zipWith_smooth_one : ∀ (l₁ l₂ : List ℝ), l₁.length = l₂.length →
    List.zipWith (fun tp sp => tp * (1 - (1 : ℝ)) + sp * 1) l₁ l₂ = l₂
  | [], [], _ => rfl
  | [], _ :: _, h => by simp at h
  | _ :: _, [], h => by simp at h
  | x :: xs, y :: ys, h => by
      simp only [List.zipWith_cons_cons]
      rw [zipWith_smooth_one xs ys (by simpa using h)]
      norm_num

theorem zipWith_smooth_zero : ∀ (l₁ l₂ : List ℝ), l₁.length = l₂.length →
    List.zipWith (fun tp sp => tp * (1 - (0 : ℝ)) + sp * 0) l₁ l₂ = l₁
  | [], [], _ => rfl
  | [], _ :: _, h => by simp at h
  | _ :: _, [], h => by simp at h
  | x :: xs, y :: ys, h => by
      simp only [List.zipWith_cons_cons]
      rw [zipWith_smooth_zero xs ys (by simpa using h)]
      norm_num

theorem zipWith_smooth_one_mat (m₁ m₂ : List Vec)
    (h : List.Forall₂ (fun r₁ r₂ => r₁.length = r₂.length) m₁ m₂) :
    List.zipWith (List.zipWith (fun tp sp => tp * (1 - (1 : ℝ)) + sp * 1)) m₁ m₂ = m₂ := by
  induction h with
  | nil => rfl
  | cons hr _ ih => simp only [List.zipWith_cons_cons, ih, zipWith_smooth_one _ _ hr]

theorem zipWith_smooth_zero_mat (m₁ m₂ : List Vec)
    (h : List.Forall₂ (fun r₁ r₂ => r₁.length = r₂.length) m₁ m₂) :
    List.zipWith (List.zipWith (fun tp sp => tp * (1 - (0 : ℝ)) + sp * 0)) m₁ m₂ = m₁ := by
  induction h with
  | nil => rfl
  | cons hr _ ih => simp only [List.zipWith_cons_cons, ih, zipWith_smooth_zero _ _ hr]

/-- Claim C5: the smoothing step sets, for every parameter tensor exposed by
`parameters()` in lock-step ordering, `target ← target·(1−τ) + source·τ`;
one application with `τ = 1` makes the target parameters equal the source
parameters, and applications with `τ = 0` leave the target unchanged
regardless of the source. -/
theorem C5_target_smoother (τ : ℝ) (t s : Mlp ℝ) (h : layerShapeEq t.last_fc s.last_fc) :
    ((softUpdateMlp τ t s).last_fc.weight =
        List.zipWith (List.zipWith (fun tp sp => tp * (1 - τ) + sp * τ))
          t.last_fc.weight s.last_fc.weight
      ∧ (softUpdateMlp τ t s).last_fc.bias =
          List.zipWith (fun tp sp => tp * (1 - τ) + sp * τ) t.last_fc.bias s.last_fc.bias
      ∧ (softUpdateMlp τ t s).fcs = t.fcs)
    ∧ (softUpdateMlp 1 t s).last_fc = s.last_fc
    ∧ softUpdateMlp 0 t s = t
    ∧ ∀ n, (fun tv => softUpdateMlp 0 tv s)^[n] t = t := by
  obtain ⟨hw, hb⟩ := h
  have hone : (softUpdateMlp 1 t s).last_fc = s.last_fc := by
    show softUpdateLayer 1 t.last_fc s.last_fc = s.last_fc
    unfold softUpdateLayer
    rw [zipWith_smooth_one_mat _ _ hw, zipWith_smooth_one _ _ hb]
  have hzero : softUpdateMlp 0 t s = t := by
    unfold softUpdateMlp softUpdateLayer
    rw [zipWith_smooth_zero_mat _ _ hw, zipWith_smooth_zero _ _ hb]
  refine ⟨⟨rfl, rfl, rfl⟩, hone, hzero, ?_⟩
  intro n
  induction n with
  | zero => rfl
  | succ k ih => rw [Function.iterate_succ_apply, hzero, ih]

/-- Concrete target network for the C5 witness. -/
def tW : Mlp ℝ := ⟨[], ⟨[[2]], [3]⟩⟩

/-- Concrete source network for the C5 witness. -/
def sW : Mlp ℝ := ⟨[], ⟨[[4]], [5]⟩⟩

theorem C5_witness : softUpdateMlp 0 tW sW = tW :=
  (C5_target_smoother 0 tW sW ⟨List.Forall₂.cons rfl List.Forall₂.nil, rfl⟩).2.2.1

/-! ### Claims about the update step -/

/-- Claim C1 (amended): the action-value loss is the mean-squared error
between `q_pred = Q(states, actions)` and
`q_target = rewards + (1-dones)·γ·V_target(next_states)`, and the only
gradient step taken with it is on Q's parameters; `q_target` is however not
detached, so its backward pass also deposits gradients in the target-V
network's buffers (in general nonzero), which no optimizer applies. -/
theorem C1_qf_loss_and_step (cfg : SacConfig) (opts : Optims) (S : SacState) (b : Batch)
    (noise : List Vec) :
    (update cfg opts S b noise).qf = opts.qf_opt S.qf (qfGrad S.qf S.target_vf cfg.discount b)
    ∧ ∀ (qf tvf : Mlp ℝ) (γ : ℝ) (b' : Batch),
        qfLossG qf tvf γ b' =
          specMse (qPredG qf b'.states b'.actions)
            (specQTarget γ b'.rewards b'.dones (vOutG tvf b'.next_states)) :=
  ⟨rfl, qfLossG_real⟩

/-- Concrete one-dimensional Q-network (no hidden layers, zero weights). -/
def qf0 : Mlp ℝ := ⟨[], ⟨[[0, 0]], [0]⟩⟩

/-- Concrete one-dimensional target-V network with output bias 1. -/
def tvf0 : Mlp ℝ := ⟨[], ⟨[[0]], [1]⟩⟩

/-- Concrete one-dimensional V-network. -/
def vf0 : Mlp ℝ := ⟨[], ⟨[[0]], [0]⟩⟩

/-- A concrete batch of one transition. -/
def batch0 : Batch := ⟨[[1]], [[1]], [0], [[1]], [0]⟩

/-- Claim C1 counterexample: the backward pass of the action-value loss
deposits a nonzero gradient in the target-V network's parameters — `q_target`
is not treated as a constant by autograd. -/
theorem C1_counterexample : tvfGradOfQfLoss qf0 tvf0 1 batch0 ≠ zeroLikeMlp tvf0 := by
  intro h
  have hb := congrArg (fun m : Mlp ℝ => m.last_fc.bias) h
  simp [tvfGradOfQfLoss, gradMlpBy, mapIdxR, mapIdxGo, seedMlpAt, seedLayerAt, seedVecAt,
    seedMatAt, constMlpD, constLayerD, constMatD, constVD, qfLossG, mseG, meanG, qPredG,
    qTargetG, vOutG, mlpForwardG, affineG, reluVG, constVG, scalarG, dotG, qf0, tvf0,
    batch0, zeroLikeMlp, zeroLayer, zeroVec] at hb

/-- Claim C2: the state-value loss is the mean-squared error between
`v_pred = V(states)` and the detached target
`v_target = Q(next_states, actions) - alpha·log_pi`, where the actions are
the batch's stored actions paired with the next states and `log_pi` is the
summed log-probability computed at the current states, followed by one
gradient step on V's parameters. -/
theorem C2_vf_loss_and_step (cfg : SacConfig) (opts : Optims) (S : SacState) (b : Batch)
    (noise : List Vec) :
    (update cfg opts S b noise).vf =
      opts.vf_opt S.vf (vfGrad S.vf
        (vTargetVals S.qf (alphaUsed cfg opts S.log_alpha (logPiOf S.policy b.states noise))
          (logPiOf S.policy b.states noise) b) b.states)
    ∧ ∀ (vf : Mlp ℝ) (vt : List ℝ) (states : List Vec),
        vfLossG vf vt states = specMse (vOutG vf states) vt :=
  ⟨rfl, vfLossG_real⟩

/-- Claim C6: across every update call the target state-value network's
parameters are changed only by the exponential-smoothing copy from the live
state-value network (taken after its gradient step), never by an optimizer
step. -/
theorem C6_target_smoothing_only (cfg : SacConfig) (opts : Optims) (S : SacState)
    (b : Batch) (noise : List Vec) :
    (update cfg opts S b noise).target_vf =
      softUpdateMlp cfg.soft_target_tau S.target_vf ((update cfg opts S b noise).vf) := rfl

/-- Claim C7 (amended): within one update call each optimizer's applied step
receives exactly the gradient of its own loss in its own parameters (the
temperature step the alpha loss, the Q step the Q loss, the V step the V
loss, the policy step the zero gradient its loss produces); the backward
passes do additionally deposit gradients of one loss into other
approximators' buffers (in general nonzero), but those are never applied
within the call. -/
theorem C7_per_optimizer_steps (cfg : SacConfig) (opts : Optims) (S : SacState) (b : Batch)
    (noise : List Vec) :
    (update cfg opts S b noise).qf = opts.qf_opt S.qf (qfGrad S.qf S.target_vf cfg.discount b)
    ∧ (update cfg opts S b noise).vf =
        opts.vf_opt S.vf (vfGrad S.vf
          (vTargetVals S.qf (alphaUsed cfg opts S.log_alpha (logPiOf S.policy b.states noise))
            (logPiOf S.policy b.states noise) b) b.states)
    ∧ (update cfg opts S b noise).policy = opts.policy_opt S.policy (zeroLikePolicy S.policy)
    ∧ (update cfg opts S b noise).log_alpha =
        newLogAlpha cfg opts S.log_alpha (logPiOf S.policy b.states noise) :=
  ⟨rfl, rfl, rfl, rfl⟩

/-- Claim C7 counterexample: the policy loss deposits a nonzero gradient in
the Q-network's parameter buffers (its `q_new_actions` term is not detached),
so losses do accumulate gradients into a different approximator's
parameters. -/
theorem C7_counterexample : qfGradOfPolicyLoss qf0 0 [1] batch0 ≠ zeroLikeMlp qf0 := by
  intro h
  have hb := congrArg (fun m : Mlp ℝ => m.last_fc.bias) h
  simp [qfGradOfPolicyLoss, gradMlpBy, mapIdxR, mapIdxGo, seedMlpAt, seedLayerAt,
    seedVecAt, seedMatAt, constMlpD, constLayerD, constMatD, constVD, policyLossG, meanG,
    qNewG, mlpForwardG, affineG, reluVG, constVG, scalarG, dotG, qf0, batch0, zeroLikeMlp,
    zeroLayer, zeroVec, Real.exp_zero] at hb

/-- Claim C9: one update call leaves the policy network's parameters
unchanged: `log_pi` is detached and the policy loss does not depend on the
policy's parameters, so the policy optimizer's step receives only zero
gradients; for any step that applies no update on zero gradients the
parameters are identical. -/
theorem C9_policy_params_unchanged (cfg : SacConfig) (opts : Optims) (S : SacState)
    (b : Batch) (noise : List Vec)
    (hO : opts.policy_opt S.policy (zeroLikePolicy S.policy) = S.policy) :
    (update cfg opts S b noise).policy = S.policy := hO

/-- Optimizers for the witnesses: each step returns the parameters unchanged
(a zero learning rate). -/
def opts0 : Optims := ⟨fun p _ => p, fun q _ => q, fun v _ => v, fun a _ => a⟩

/-- A concrete configuration with automatic entropy tuning enabled. -/
def cfg0 : SacConfig := ⟨1, 1 / 2, -1, true⟩

/-- A concrete SAC state built from the concrete networks. -/
def S0 : SacState := ⟨pol0, qf0, vf0, tvf0, 0⟩

/-- Concrete noise draws for the batch. -/
def noise0 : List Vec := [[0]]

theorem C9_witness : (update cfg0 opts0 S0 batch0 noise0).policy = S0.policy :=
  C9_policy_params_unchanged cfg0 opts0 S0 batch0 noise0 rfl

/-! ### Claim C4 -/

theorem D_ext {x y : D} (h1 : x.val = y.val) (h2 : x.der = y.der) : x = y := by
  cases x
  cases y
  simp only [D_mk_val, D_mk_der] at h1 h2
  rw [h1, h2]

theorem sumG_alpha_dual (la : ℝ) : ∀ (l : List ℝ),
    sumG (l.map fun ci => (⟨la, 1⟩ : D) * ⟨ci, 0⟩) = ⟨la * l.sum, l.sum⟩
  | [] => by
      apply D_ext <;> simp
  | x :: xs => by
      apply D_ext <;> simp [sumG_alpha_dual la xs, List.sum_cons]
      ring

theorem alphaLoss_real (la : ℝ) (c : List ℝ) :
    alphaLossG la c = -(la * (c.sum / c.length)) := by
  unfold alphaLossG
  rw [meanG_real, List.length_map]
  have hs : ∀ (l : List ℝ), (l.map fun ci => la * SacPrims.const ci).sum = la * l.sum := by
    intro l
    induction l with
    | nil => simp
    | cons x xs ih =>
        simp only [List.map_cons, List.sum_cons, const_real] at ih ⊢
        rw [ih]
        ring
  rw [hs]
  ring

theorem alphaGrad_real (la : ℝ) (c : List ℝ) : alphaGrad la c = -(c.sum / c.length) := by
  simp [alphaGrad, gradScalarBy, alphaLossG, meanG, sumG_alpha_dual la c]
  ring

/-- The configuration with automatic entropy tuning switched on. -/
def withTuning (cfg : SacConfig) : SacConfig :=
  { cfg with use_automatic_entropy_tuning := true }

/-- Claim C4 (amended): with tuning enabled, each update call computes the
temperature loss `-log_alpha · mean(log_pi + target_entropy)` with the
batch's log-probabilities as constants, performs exactly one step on
`log_alpha` via its own optimizer with that loss's gradient, and the alpha
used in the later losses equals `exp(log_alpha)` after that step.  The value
is however not detached: the policy loss has in general a nonzero derivative
with respect to `log_alpha` (in general nonzero), deposited in its
buffer and applied by no step of the same call. -/
theorem C4_temperature_step (cfg : SacConfig) (opts : Optims) (S : SacState) (b : Batch)
    (noise : List Vec) :
    (update (withTuning cfg) opts S b noise).log_alpha =
        opts.alpha_opt S.log_alpha
          (alphaGrad S.log_alpha
            ((logPiOf S.policy b.states noise).map (fun lp => lp + cfg.target_entropy)))
    ∧ (∀ (la : ℝ) (c : List ℝ), alphaLossG la c = -(la * (c.sum / c.length)))
    ∧ (∀ (la : ℝ) (c : List ℝ), alphaGrad la c = -(c.sum / c.length))
    ∧ alphaUsed (withTuning cfg) opts S.log_alpha (logPiOf S.policy b.states noise) =
        Real.exp ((update (withTuning cfg) opts S b noise).log_alpha) :=
  ⟨rfl, alphaLoss_real, alphaGrad_real, rfl⟩

/-- Claim C4 counterexample: `alpha = self.log_alpha.exp()` is not detached —
the policy loss has a nonzero derivative with respect to `log_alpha`, which
`policy_loss.backward()` deposits in `log_alpha`'s gradient buffer. -/
theorem C4_counterexample : laGradOfPolicyLoss qf0 0 [1] batch0 ≠ 0 := by
  simp [laGradOfPolicyLoss, gradScalarBy, policyLossG, meanG, qNewG, mlpForwardG,
    affineG, reluVG, constVG, scalarG, dotG, constMlpD, constLayerD, constMatD, constVD,
    qf0, batch0, Real.exp_zero]

end Cherry
